import Mathlib

/-!
Shallow embedding of the analysis-pipeline core of the chat-with-data
repository: the response validators (`validatePlanResponse`,
`validateInsightsResponse`, `validateChartSpec`), the synthesis payload
capping in `synthesizeInsights`, and the orchestrator `runInsights` from
`src/lib/use-insights.ts`.

Untrusted decoded JSON is modelled by `JVal`, which also carries the
JavaScript `undefined` value so that absent object fields behave as in the
source (`obj.k` is `undefined` when `k` is missing).  JavaScript numbers are
modelled as integers; the claims only use the number-to-string coercion on
ids, which agrees with `Int` printing on integral values.
-/

namespace ChatWithData

/-- A decoded JavaScript value as seen by the validators. -/
inductive JVal where
  | undefined
  | null
  | bool (b : Bool)
  | num (n : Int)
  | str (s : String)
  | arr (elems : List JVal)
  | obj (fields : List (String × JVal))
deriving Repr

/-- JavaScript `typeof v === "object"`: true for plain objects, arrays and
`null`, false for strings, numbers, booleans and `undefined`. -/
def JVal.typeofObject : JVal → Bool
  | .null | .arr _ | .obj _ => true
  | _ => false

/-- The source guard `typeof v === "object" && v !== null`. -/
def JVal.isObjectLike : JVal → Bool
  | .arr _ | .obj _ => true
  | _ => false

/-- JavaScript property access `v.k`: on a plain object, the field's value
(`undefined` when absent); on everything else `undefined` (the source only
reads named fields, never array indices or built-ins). -/
def JVal.getField : JVal → String → JVal
  | .obj fields, k =>
    match fields.lookup k with
    | some v => v
    | none => .undefined
  | _, _ => .undefined

/-- JavaScript truthiness of a value (`NaN` is not modelled). -/
def JVal.truthy : JVal → Bool
  | .undefined | .null => false
  | .bool b => b
  | .num n => n != 0
  | .str s => s != ""
  | .arr _ | .obj _ => true

/-- Returns `some s` when the value is a string (`typeof v === "string"`). -/
def JVal.asString? : JVal → Option String
  | .str s => some s
  | _ => none

/-! ## Data contracts (src/lib/types.ts, src/lib/insights-api.ts)

`rationale` keeps type `JVal`: the source computes it as
`(item.rationale as string) || ""`, which at runtime passes any truthy
value through unchanged, string or not. -/

structure AnalysisPlanItem where
  id : String
  title : String
  sql : String
  rationale : JVal
deriving Repr

structure AnalysisPlanResponse where
  queries : List AnalysisPlanItem
deriving Repr

structure QueryResult where
  columns : List String
  rows : List JVal
deriving Repr

structure YKeyEntry where
  key : String
  label : Option String := none
  color : Option String := none
deriving Repr

structure ChartSpec where
  type : String
  title : String
  xKey : String
  yKeys : List YKeyEntry
  stacked : Bool
deriving Repr

structure InsightItem where
  title : String
  priority : String
  finding : String
  sql : String
  chart : Option ChartSpec := none
  queryResult : Option QueryResult := none
deriving Repr

structure InsightsResponse where
  summary : String
  insights : List InsightItem
deriving Repr

structure PlanItemWithResult where
  id : String
  title : String
  sql : String
  rationale : JVal
  result : Option QueryResult := none
  error : Option String := none
deriving Repr

inductive InsightsPhase where
  | planning
  | executing
  | synthesizing
  | done
  | error
deriving Repr, DecidableEq

structure InsightsProgress where
  phase : InsightsPhase
  totalQueries : Nat
  completedQueries : Nat
  currentQueryTitle : Option String := none
deriving Repr

structure InsightsResult where
  summary : String
  insights : List InsightItem
deriving Repr

/-! ## validatePlanResponse (src/lib/insights-api.ts) -/

/-- The per-element guard of the plan loop:
`typeof q === "object" && q !== null && typeof q.title === "string" &&
typeof q.sql === "string"`. -/
def wellFormedQuery (q : JVal) : Bool :=
  q.isObjectLike && (q.getField "title").asString?.isSome
    && (q.getField "sql").asString?.isSome

/-- The id computation of the plan loop: a non-empty string id is kept, a
numeric id is coerced with `String(...)`, anything else gets the synthetic
`"q<idx+1>"` (`idx` is the element's 0-based index in the raw array). -/
def planItemId (q : JVal) (idx : Nat) : String :=
  match q.getField "id" with
  | .str s => if s ≠ "" then s else "q" ++ toString (idx + 1)
  | .num n => toString n
  | _ => "q" ++ toString (idx + 1)

/-- The source's `(item.rationale as string) || ""`: a truthy rationale passes through
unchanged, a falsy one becomes the empty string. -/
def planRationale (q : JVal) : JVal :=
  let r := q.getField "rationale"
  if r.truthy then r else .str ""

/-- The validation loop over the raw `queries` array, carrying the current
0-based index; malformed elements are dropped. -/
def validateQueries : List JVal → Nat → List AnalysisPlanItem
  | [], _ => []
  | q :: rest, idx =>
    let tail := validateQueries rest (idx + 1)
    if q.isObjectLike then
      match q.getField "title", q.getField "sql" with
      | .str title, .str sql =>
        { id := planItemId q idx, title := title, sql := sql,
          rationale := planRationale q } :: tail
      | _, _ => tail
    else tail

/-- The function `validatePlanResponse` from src/lib/insights-api.ts. -/
def validatePlanResponse (data : JVal) : Except String AnalysisPlanResponse :=
  if data.isObjectLike then
    match data.getField "queries" with
    | .arr queries => .ok ⟨validateQueries queries 0⟩
    | _ => .error ("Invalid plan response: " ++ "missing or invalid 'queries' array")
  else .error ("Invalid plan response: " ++ "expected an object")

/-! ## Chart validation -/

def validChartTypes : List String := ["bar", "line", "pie", "area", "scatter"]

def validPriorities : List String := ["high", "medium", "low"]

/-- The shared yKeys filter: keep elements that are objects with a string
`key`, copying string `label` / `color` when present. -/
def validYKeysOf (ys : List JVal) : List YKeyEntry :=
  ys.filterMap fun yk =>
    if yk.isObjectLike then
      match yk.getField "key" with
      | .str k =>
        some { key := k, label := (yk.getField "label").asString?,
               color := (yk.getField "color").asString? }
      | _ => none
    else none

/-- The function `validateChartSpec` from src/lib/api.ts: the standalone chart validator
used for direct visualization responses.  It requires `yKeys` to be a
non-empty array — it has no legacy single-`yKey` fallback. -/
def validateChartSpec (data : JVal) : Option ChartSpec :=
  if data.isObjectLike then
    match (data.getField "type").asString? with
    | some t =>
      if validChartTypes.contains t then
        match (data.getField "xKey").asString?, (data.getField "title").asString? with
        | some xKey, some title =>
          match data.getField "yKeys" with
          | .arr ys =>
            if ys.isEmpty then none
            else
              let validYKeys := validYKeysOf ys
              if validYKeys.isEmpty then none
              else
                some { type := t, title := title, xKey := xKey,
                       yKeys := validYKeys,
                       stacked := match data.getField "stacked" with
                                  | .bool b => b
                                  | _ => false }
          | _ => none
        | _, _ => none
      else none
    | none => none
  else none

/-- The chart validation inlined in `validateInsightsResponse`
(src/lib/insights-api.ts): like `validateChartSpec` but it synthesizes
`yKeys = [{key: yKey}]` when `yKeys` is absent or empty and a string `yKey`
exists, and it falls back to the insight's title when `chart.title` is not a
string. -/
def insightChart (c : JVal) (fallbackTitle : String) : Option ChartSpec :=
  if c.isObjectLike then
    match (c.getField "type").asString? with
    | some t =>
      if validChartTypes.contains t then
        match (c.getField "xKey").asString? with
        | some xKey =>
          let legacy : List JVal :=
            match c.getField "yKey" with
            | .str yk => [.obj [("key", .str yk)]]
            | _ => []
          let yKeysRaw : List JVal :=
            match c.getField "yKeys" with
            | .arr ys => if ys.isEmpty then legacy else ys
            | _ => legacy
          let validYKeys := validYKeysOf yKeysRaw
          if validYKeys.isEmpty then none
          else
            some { type := t,
                   title := (c.getField "title").asString?.getD fallbackTitle,
                   xKey := xKey, yKeys := validYKeys,
                   stacked := match c.getField "stacked" with
                              | .bool b => b
                              | _ => false }
        | none => none
      else none
    | none => none
  else none

/-! ## validateInsightsResponse (src/lib/insights-api.ts) -/

/-- One iteration of the insights loop: `none` mirrors `continue` (the entry
is dropped), `some` the pushed entry. -/
def validateInsightItem (item : JVal) : Option InsightItem :=
  if item.isObjectLike then
    match (item.getField "title").asString?, (item.getField "finding").asString? with
    | some title, some finding =>
      let priority :=
        match (item.getField "priority").asString? with
        | some p => if validPriorities.contains p then p else "medium"
        | none => "medium"
      some { title := title, priority := priority, finding := finding,
             sql := (item.getField "sql").asString?.getD "",
             chart := insightChart (item.getField "chart") title,
             queryResult := none }
    | _, _ => none
  else none

/-- The function `validateInsightsResponse` from src/lib/insights-api.ts. -/
def validateInsightsResponse (data : JVal) : Except String InsightsResponse :=
  if data.isObjectLike then
    let summary := (data.getField "summary").asString?.getD "Analysis complete."
    let rawInsights :=
      match data.getField "insights" with
      | .arr xs => xs
      | _ => []
    .ok { summary := summary, insights := rawInsights.filterMap validateInsightItem }
  else .error ("Invalid insights response: " ++ "expected an object")

/-! ## synthesizeInsights payload capping (src/lib/insights-api.ts) -/

/-- The capped result `{columns: r.columns, rows: r.rows.slice(0, 20)}`. -/
def capResult (r : QueryResult) : QueryResult :=
  { columns := r.columns, rows := r.rows.take 20 }

/-- The `capped` list built at the top of `synthesizeInsights`: each item is
spread unchanged except that its `result`, when present, has its rows capped
at 20.  `slice` and the object spread copy; the input list is untouched. -/
def capPlanForSynthesis (planWithResults : List PlanItemWithResult) :
    List PlanItemWithResult :=
  planWithResults.map fun item => { item with result := item.result.map capResult }

/-! ## The orchestrator runInsights (src/lib/use-insights.ts)

`runInsights` awaits two network calls and, per plan item, one query-engine
call.  The embedding takes their outcomes as oracles:
`plan` is the settled outcome of `requestAnalysisPlan` (fetch +
`validatePlanResponse`), `engine sql` the outcome of `executeQuery sql`
(`.error` carries the message extracted from the thrown value), and `synth`
the settled outcome of `synthesizeInsights` on the accumulated
`planWithResults`.  The returned list is the sequence of `setProgress`
snapshots in order; the `Except` is the promise's settlement. -/

/-- The loop body per plan item: attach `result` on engine success, `error`
on engine failure — never both. -/
def execItem (engine : String → Except String QueryResult)
    (q : AnalysisPlanItem) : PlanItemWithResult :=
  match engine q.sql with
  | .ok r =>
    { id := q.id, title := q.title, sql := q.sql, rationale := q.rationale,
      result := some r, error := none }
  | .error e =>
    { id := q.id, title := q.title, sql := q.sql, rationale := q.rationale,
      result := none, error := some e }

/-- The `planWithResults` list accumulated by the executing loop. -/
def execItems (engine : String → Except String QueryResult)
    (qs : List AnalysisPlanItem) : List PlanItemWithResult :=
  qs.map (execItem engine)

/-- The `setProgress` snapshots emitted inside the executing loop: one per
item, with `completedQueries` equal to the item's 0-based index `i` and
`currentQueryTitle` the item's title. -/
def execTrace (n : Nat) : List AnalysisPlanItem → Nat → List InsightsProgress
  | [], _ => []
  | q :: rest, i =>
    { phase := .executing, totalQueries := n, completedQueries := i,
      currentQueryTitle := some q.title } :: execTrace n rest (i + 1)

/-- The back-fill step: attach to each insight the `result` of the first
plan item whose `sql` equals the insight's `sql`. -/
def attachResults (planWithResults : List PlanItemWithResult)
    (insights : List InsightItem) : List InsightItem :=
  insights.map fun insight =>
    { insight with
      queryResult := (planWithResults.find? fun q => q.sql == insight.sql).bind
        (fun q => q.result) }

/-- The orchestrator `runInsights` from src/lib/use-insights.ts: the progress snapshots in
emission order, paired with the settled outcome. -/
def runInsights (plan : Except String AnalysisPlanResponse)
    (engine : String → Except String QueryResult)
    (synth : List PlanItemWithResult → Except String InsightsResponse) :
    List InsightsProgress × Except String InsightsResult :=
  let p0 : InsightsProgress :=
    { phase := .planning, totalQueries := 0, completedQueries := 0 }
  match plan with
  | .error msg => ([p0], .error msg)
  | .ok planResp =>
    if planResp.queries.length = 0 then
      ([p0], .error "No analysis queries were generated. Please try again.")
    else
      let n := planResp.queries.length
      let p1 : InsightsProgress :=
        { phase := .executing, totalQueries := n, completedQueries := 0 }
      let loopTrace := execTrace n planResp.queries 0
      let planWithResults := execItems engine planResp.queries
      let p2 : InsightsProgress :=
        { phase := .synthesizing, totalQueries := n, completedQueries := n }
      match synth planWithResults with
      | .error msg => (p0 :: p1 :: loopTrace ++ [p2], .error msg)
      | .ok response =>
        let p3 : InsightsProgress :=
          { phase := .done, totalQueries := n, completedQueries := n }
        (p0 :: p1 :: loopTrace ++ [p2, p3],
         .ok { summary := response.summary,
               insights := attachResults planWithResults response.insights })

/-! ## Claim-side characterization of the plan validator -/

/-- The plan item the spec describes for the raw element `p.2` found at
0-based index `p.1` of the `queries` array. -/
def specPlanItemAt (p : Nat × JVal) : AnalysisPlanItem :=
  { id := planItemId p.2 p.1,
    title := (p.2.getField "title").asString?.getD "",
    sql := (p.2.getField "sql").asString?.getD "",
    rationale := planRationale p.2 }

/-- The spec's description of the validated plan list: exactly the
well-formed elements, in input order, each built from its value and its
index in the original array. -/
def specPlanItems (xs : List JVal) : List AnalysisPlanItem :=
  ((xs.enum.filter fun p => wellFormedQuery p.2).map specPlanItemAt)

lemma validateQueries_eq_enumFrom (xs : List JVal) (i : Nat) :
    validateQueries xs i =
      (((List.enumFrom i xs).filter fun p => wellFormedQuery p.2).map specPlanItemAt) := by
  induction xs generalizing i with
  | nil => rfl
  | cons q rest ih =>
    cases hob : q.isObjectLike with
    | false =>
      simp [validateQueries, hob, List.enumFrom, wellFormedQuery, ih]
    | true =>
      cases ht : q.getField "title" <;> cases hs : q.getField "sql" <;>
        simp [validateQueries, hob, ht, hs, List.enumFrom, wellFormedQuery,
          JVal.asString?, ih, specPlanItemAt]

lemma validateQueries_eq_spec (xs : List JVal) :
    validateQueries xs 0 = specPlanItems xs := by
  rw [validateQueries_eq_enumFrom]
  rfl

lemma countP_enumFrom (xs : List JVal) (i : Nat) :
    (List.enumFrom i xs).countP (fun p => wellFormedQuery p.2) =
      xs.countP wellFormedQuery := by
  induction xs generalizing i with
  | nil => rfl
  | cons q rest ih => simp [List.enumFrom, List.countP_cons, ih]

lemma specPlanItems_length (xs : List JVal) :
    (specPlanItems xs).length = xs.countP wellFormedQuery := by
  unfold specPlanItems
  rw [List.length_map, ← List.countP_eq_length_filter, List.enum, countP_enumFrom]

/-- Scenario A plan response: one query with only `title` and `sql`. -/
def planScenarioAQueries : List JVal :=
  [.obj [("title", .str "Count rows"), ("sql", .str "SELECT COUNT(*) FROM t")]]

def planScenarioA : JVal := .obj [("queries", .arr planScenarioAQueries)]

/-- C3: `validatePlanResponse` fails exactly when the input is not an object
(in the JS sense: `typeof` not "object", or `null`) — message containing
"expected an object" — or when its `queries` field is not an array — message
containing "missing or invalid 'queries' array".  For every other input it
returns successfully, malformed array elements being dropped (the output
length counts only well-formed elements) rather than causing an error. -/
theorem validatePlanResponse_failure_iff (d : JVal) :
    (d.isObjectLike = false →
      validatePlanResponse d = .error ("Invalid plan response: " ++ "expected an object")) ∧
    (d.isObjectLike = true → (∀ xs, d.getField "queries" ≠ .arr xs) →
      validatePlanResponse d =
        .error ("Invalid plan response: " ++ "missing or invalid 'queries' array")) ∧
    (∀ xs, d.isObjectLike = true → d.getField "queries" = .arr xs →
      ∃ r, validatePlanResponse d = .ok r ∧
        r.queries.length = xs.countP wellFormedQuery) := by
  refine ⟨fun h => by simp [validatePlanResponse, h], fun h hq => ?_, fun xs h hq => ?_⟩
  · cases hgf : d.getField "queries" <;>
      simp [validatePlanResponse, h, hgf]
    exact absurd hgf (hq _)
  · refine ⟨⟨validateQueries xs 0⟩, by simp [validatePlanResponse, h, hq], ?_⟩
    rw [validateQueries_eq_spec, specPlanItems_length]

theorem validatePlanResponse_failure_iff_witness :
    JVal.isObjectLike (.str "nope") = false ∧
    validatePlanResponse (.str "nope") =
      .error ("Invalid plan response: " ++ "expected an object") :=
  ⟨rfl, (validatePlanResponse_failure_iff (.str "nope")).1 rfl⟩

/-- C4: for every object input whose `queries` field is an array, the
validated plan is exactly the well-formed elements in input order
(`specPlanItems`), its length the count of well-formed entries; an item's id
is the element's id when that is a non-empty string, the string coercion of
a numeric id, and the synthetic `"q<1-based-index>"` (index in the original
array) otherwise; `rationale` defaults to the empty string when absent; and
scenario A yields one item with id `"q1"` and rationale `""`. -/
theorem validatePlanResponse_wellFormed :
    (∀ d xs, d.isObjectLike = true → d.getField "queries" = .arr xs →
       validatePlanResponse d = .ok ⟨specPlanItems xs⟩ ∧
       (specPlanItems xs).length = xs.countP wellFormedQuery) ∧
    (∀ q idx s, q.getField "id" = .str s → s ≠ "" → planItemId q idx = s) ∧
    (∀ q idx n, q.getField "id" = .num n → planItemId q idx = toString n) ∧
    (∀ q idx, (∀ s, q.getField "id" = .str s → s = "") →
       (∀ n, q.getField "id" ≠ .num n) →
       planItemId q idx = "q" ++ toString (idx + 1)) ∧
    (∀ q, q.getField "rationale" = .undefined → planRationale q = .str "") ∧
    validatePlanResponse planScenarioA =
      .ok ⟨[{ id := "q1", title := "Count rows", sql := "SELECT COUNT(*) FROM t",
              rationale := .str "" }]⟩ := by
  refine ⟨fun d xs h hq => ⟨?_, specPlanItems_length xs⟩, ?_, ?_, ?_, ?_, ?_⟩
  · simp [validatePlanResponse, h, hq, validateQueries_eq_spec]
  · intro q idx s h hs
    simp [planItemId, h, hs]
  · intro q idx n h
    simp [planItemId, h]
  · intro q idx hstr hnum
    cases hid : q.getField "id" <;>
      first
      | exact absurd hid (hnum _)
      | (have hs := hstr _ hid; subst hs; simp [planItemId, hid])
      | simp [planItemId, hid]
  · intro q h
    simp [planRationale, h, JVal.truthy]
  · rfl

theorem validatePlanResponse_wellFormed_witness :
    JVal.isObjectLike planScenarioA = true ∧
    JVal.getField planScenarioA "queries" = .arr planScenarioAQueries ∧
    (validatePlanResponse planScenarioA = .ok ⟨specPlanItems planScenarioAQueries⟩ ∧
     (specPlanItems planScenarioAQueries).length =
       planScenarioAQueries.countP wellFormedQuery) :=
  ⟨rfl, rfl,
   validatePlanResponse_wellFormed.1 planScenarioA planScenarioAQueries rfl rfl⟩

/-! ## Chart claims -/

/-- The legacy single-`yKey` chart shape of the spec's round-trip scenario. -/
def legacyChartJson : JVal :=
  .obj [("type", .str "bar"), ("xKey", .str "region"),
        ("yKey", .str "sales"), ("title", .str "T")]

/-- The normalized form the round-trip is supposed to produce. -/
def legacyChartExpected : ChartSpec :=
  { type := "bar", title := "T", xKey := "region",
    yKeys := [{ key := "sales" }], stacked := false }

/-- An insights response whose single insight carries the legacy chart. -/
def legacyInsightsJson : JVal :=
  .obj [("summary", .str "s"),
        ("insights", .arr [.obj [("title", .str "I"), ("finding", .str "F"),
                                 ("chart", legacyChartJson)]])]

/-- C6 counterexample: the standalone `validateChartSpec` of src/lib/api.ts
does not accept the legacy single-`yKey` shape — it returns `null` on the
spec's round-trip input instead of the normalized chart. -/
theorem validateChartSpec_legacy_counterexample :
    validateChartSpec legacyChartJson = none ∧
    validateChartSpec legacyChartJson ≠ some legacyChartExpected := by
  constructor
  · rfl
  · intro h
    exact Option.noConfusion (rfl.trans h :
      (none : Option ChartSpec) = some legacyChartExpected)

/-- C6 (amended): only the chart validation inlined in
`validateInsightsResponse` accepts the legacy single-`yKey` shape,
synthesizing `yKeys = [{key: yKey}]` when `yKeys` is absent or empty and a
string `yKey` exists; there the spec's round-trip holds (both for
`insightChart` directly and through `validateInsightsResponse`), while the
standalone `validateChartSpec` returns `null` for the same input. -/
theorem insightChart_legacy_roundtrip :
    insightChart legacyChartJson "fallback" = some legacyChartExpected ∧
    (∀ (c : JVal) (yk : String), c.getField "yKeys" = .undefined →
       c.getField "yKey" = .str yk →
       validYKeysOf [.obj [("key", .str yk)]] = [{ key := yk }]) ∧
    validateInsightsResponse legacyInsightsJson =
      .ok { summary := "s",
            insights := [{ title := "I", priority := "medium", finding := "F",
                           sql := "", chart := some legacyChartExpected,
                           queryResult := none }] } ∧
    validateChartSpec legacyChartJson = none := by
  refine ⟨rfl, ?_, rfl, rfl⟩
  intro c yk _ _
  rfl

theorem insightChart_legacy_roundtrip_witness :
    JVal.getField legacyChartJson "yKeys" = .undefined ∧
    JVal.getField legacyChartJson "yKey" = .str "sales" ∧
    validYKeysOf [.obj [("key", .str "sales")]] = [{ key := "sales" }] :=
  ⟨rfl, rfl, insightChart_legacy_roundtrip.2.1 legacyChartJson "sales" rfl rfl⟩

/-- C7: the standalone `validateChartSpec` is total: every input yields
either `none` or a chart whose `yKeys` is non-empty (entries carry a string
`key` by construction); and it yields `none` whenever the `type` is not one
of the known chart types, whenever `xKey` or `title` is not a string, and
whenever the `yKeys` array filters down to no valid entry. -/
theorem validateChartSpec_total_safe :
    (∀ d s, validateChartSpec d = some s → s.yKeys ≠ []) ∧
    (∀ d, (∀ t, (d.getField "type").asString? = some t →
             validChartTypes.contains t = false) →
       validateChartSpec d = none) ∧
    (∀ d, (d.getField "xKey").asString? = none → validateChartSpec d = none) ∧
    (∀ d, (d.getField "title").asString? = none → validateChartSpec d = none) ∧
    (∀ d ys, d.getField "yKeys" = .arr ys → validYKeysOf ys = [] →
       validateChartSpec d = none) := by
  refine ⟨fun d s h => ?_, fun d h => ?_, fun d h => ?_, fun d h => ?_,
    fun d ys hy hv => ?_⟩
  · unfold validateChartSpec at h
    repeat' split at h
    all_goals try simp_all
    all_goals obtain ⟨h1, h2⟩ := h
    all_goals subst h2
    all_goals simpa using h1
  · unfold validateChartSpec
    cases hob : d.isObjectLike <;>
      cases ht : (d.getField "type").asString? <;>
        simp_all
  · unfold validateChartSpec
    cases hob : d.isObjectLike <;>
      cases ht : (d.getField "type").asString? <;>
        simp_all
  · unfold validateChartSpec
    cases hob : d.isObjectLike <;>
      cases ht : (d.getField "type").asString? <;>
        cases hx : (d.getField "xKey").asString? <;>
          simp_all
  · unfold validateChartSpec
    cases hob : d.isObjectLike <;>
      cases ht : (d.getField "type").asString? <;>
        cases hx : (d.getField "xKey").asString? <;>
          cases htt : (d.getField "title").asString? <;>
            simp_all

theorem validateChartSpec_total_safe_witness :
    (JVal.getField (.obj [("type", .str "bar")]) "xKey").asString? = none ∧
    validateChartSpec (.obj [("type", .str "bar")]) = none :=
  ⟨rfl, validateChartSpec_total_safe.2.2.1 (.obj [("type", .str "bar")]) rfl⟩

/-! ## Insights-response claims -/

lemma JVal.asString?_eq_some {v : JVal} {s : String} :
    v.asString? = some s ↔ v = .str s := by
  cases v <;> simp [JVal.asString?]

/-- C8: for every top-level-object input, `validateInsightsResponse`
succeeds with `summary` equal to the input's `summary` when that is a string
and the fixed fallback "Analysis complete." otherwise; every candidate
insight lacking a string `title` or a string `finding` is excluded while the
remaining entries are still processed (the result is the `filterMap` of the
per-item validation over the whole array); and each kept insight's
`priority` is the input priority when it is one of high/medium/low and
`"medium"` otherwise. -/
theorem validateInsightsResponse_fields (d : JVal) (hob : d.isObjectLike = true) :
    ∃ r, validateInsightsResponse d = .ok r ∧
      (∀ s, d.getField "summary" = .str s → r.summary = s) ∧
      ((d.getField "summary").asString? = none → r.summary = "Analysis complete.") ∧
      (∀ xs, d.getField "insights" = .arr xs →
         r.insights = xs.filterMap validateInsightItem) ∧
      (∀ x, ((x.getField "title").asString? = none ∨
             (x.getField "finding").asString? = none) →
         validateInsightItem x = none) ∧
      (∀ x i, validateInsightItem x = some i →
         (∃ p, x.getField "priority" = .str p ∧ p ∈ validPriorities ∧
            i.priority = p) ∨
         ((∀ p ∈ validPriorities, x.getField "priority" ≠ .str p) ∧
            i.priority = "medium")) := by
  refine ⟨{ summary := (d.getField "summary").asString?.getD "Analysis complete.",
            insights := (match d.getField "insights" with
                         | .arr xs => xs
                         | _ => []).filterMap validateInsightItem },
          by simp [validateInsightsResponse, hob], ?_, ?_, ?_, ?_, ?_⟩
  · intro s hs
    simp [hs, JVal.asString?]
  · intro h
    simp [h]
  · intro xs hxs
    simp [hxs]
  · intro x hx
    cases hobx : x.isObjectLike
    · simp [validateInsightItem, hobx]
    · rcases hx with hx | hx <;>
        cases ht : (x.getField "title").asString? <;>
          cases hf : (x.getField "finding").asString? <;>
            simp_all [validateInsightItem]
  · intro x i hxi
    unfold validateInsightItem at hxi
    by_cases hobx : x.isObjectLike = true
    case neg => simp [hobx] at hxi
    case pos =>
      rw [if_pos hobx] at hxi
      cases ht : (x.getField "title").asString? <;>
        cases hf : (x.getField "finding").asString? <;>
          simp only [ht, hf] at hxi
      case some.some title finding =>
        cases hxi
        cases hp : (x.getField "priority").asString?
        · right
          constructor
          · intro p _ heq
            rw [heq] at hp
            simp [JVal.asString?] at hp
          · simp [hp]
        · rename_i p
          by_cases hc : validPriorities.contains p = true
          · have hm : p ∈ validPriorities := by simpa using hc
            exact Or.inl ⟨p, JVal.asString?_eq_some.mp hp, hm, by simp [hp, hm]⟩
          · have hm : p ∉ validPriorities := fun hmem => hc (by simpa using hmem)
            refine Or.inr ⟨?_, by simp [hp, hm]⟩
            intro q hq heq
            have hq' : (x.getField "priority").asString? = some q := by
              rw [heq]
              rfl
            rw [hp] at hq'
            injection hq' with hpq
            subst hpq
            exact hm hq
      all_goals exact Option.noConfusion hxi

theorem validateInsightsResponse_fields_witness :
    JVal.isObjectLike legacyInsightsJson = true ∧
    ∃ r, validateInsightsResponse legacyInsightsJson = .ok r ∧
      (∀ s, legacyInsightsJson.getField "summary" = .str s → r.summary = s) ∧
      ((legacyInsightsJson.getField "summary").asString? = none →
         r.summary = "Analysis complete.") ∧
      (∀ xs, legacyInsightsJson.getField "insights" = .arr xs →
         r.insights = xs.filterMap validateInsightItem) ∧
      (∀ x, ((x.getField "title").asString? = none ∨
             (x.getField "finding").asString? = none) →
         validateInsightItem x = none) ∧
      (∀ x i, validateInsightItem x = some i →
         (∃ p, x.getField "priority" = .str p ∧ p ∈ validPriorities ∧
            i.priority = p) ∨
         ((∀ p ∈ validPriorities, x.getField "priority" ≠ .str p) ∧
            i.priority = "medium")) :=
  ⟨rfl, validateInsightsResponse_fields legacyInsightsJson rfl⟩

/-- C10 (implicit): `validateInsightsResponse` never fails on a top-level
object: when `insights` is absent or not an array it returns an empty
insights list with the summary still computed, asymmetrically with
`validatePlanResponse`, which rejects an object whose `queries` field is
absent or not an array. -/
theorem validateInsightsResponse_never_fails (d : JVal)
    (hob : d.isObjectLike = true) :
    (∃ r, validateInsightsResponse d = .ok r ∧
       ((∀ xs, d.getField "insights" ≠ .arr xs) → r.insights = []) ∧
       r.summary = (d.getField "summary").asString?.getD "Analysis complete.") ∧
    ((∀ xs, d.getField "queries" ≠ .arr xs) →
       validatePlanResponse d =
         .error ("Invalid plan response: " ++ "missing or invalid 'queries' array")) := by
  constructor
  · refine ⟨{ summary := (d.getField "summary").asString?.getD "Analysis complete.",
              insights := (match d.getField "insights" with
                           | .arr xs => xs
                           | _ => []).filterMap validateInsightItem },
            by simp [validateInsightsResponse, hob], ?_, rfl⟩
    intro h
    cases hgf : d.getField "insights" <;> simp [hgf]
    exact absurd hgf (h _)
  · intro h
    cases hgf : d.getField "queries" <;>
      simp [validatePlanResponse, hob, hgf]
    exact absurd hgf (h _)

theorem validateInsightsResponse_never_fails_witness :
    JVal.isObjectLike (.obj [("summary", .num 7)]) = true ∧
    ((∃ r, validateInsightsResponse (.obj [("summary", .num 7)]) = .ok r ∧
        ((∀ xs, JVal.getField (.obj [("summary", .num 7)]) "insights" ≠ .arr xs) →
           r.insights = []) ∧
        r.summary = (JVal.getField (.obj [("summary", .num 7)])
          "summary").asString?.getD "Analysis complete.") ∧
     ((∀ xs, JVal.getField (.obj [("summary", .num 7)]) "queries" ≠ .arr xs) →
        validatePlanResponse (.obj [("summary", .num 7)]) =
          .error ("Invalid plan response: " ++ "missing or invalid 'queries' array"))) :=
  ⟨rfl, validateInsightsResponse_never_fails (.obj [("summary", .num 7)]) rfl⟩

/-! ## Synthesis payload capping (C9) -/

/-- C9: the payload list built by `synthesizeInsights` has one entry per
plan item; each entry keeps `id`, `title`, `sql`, `rationale` and `error`
unmodified and carries at most the first 20 result rows, while the caller's
items still hold the full, untruncated `QueryResult` (the relation below is
stated against the original list, which the pure `map`/`slice`/spread
construction leaves intact). -/
theorem capPlanForSynthesis_spec (pl : List PlanItemWithResult) :
    (capPlanForSynthesis pl).length = pl.length ∧
    List.Forall₂ (fun c orig =>
        c.id = orig.id ∧ c.title = orig.title ∧ c.sql = orig.sql ∧
        c.rationale = orig.rationale ∧ c.error = orig.error ∧
        c.result = orig.result.map capResult ∧
        ∀ r', c.result = some r' → ∃ r, orig.result = some r ∧
          r'.columns = r.columns ∧ r'.rows = r.rows.take 20 ∧
          r'.rows.length ≤ 20)
      (capPlanForSynthesis pl) pl := by
  refine ⟨List.length_map _ _, ?_⟩
  unfold capPlanForSynthesis
  rw [List.forall₂_map_left_iff]
  refine List.forall₂_same.mpr fun item _ => ⟨rfl, rfl, rfl, rfl, rfl, rfl, ?_⟩
  intro r' hr'
  cases horig : item.result with
  | none => simp [horig] at hr'
  | some r =>
    rw [horig] at hr'
    injection hr' with hr'
    subst hr'
    exact ⟨r, rfl, rfl, rfl, by simp [capResult, List.length_take]⟩

def capDemoPlan : List PlanItemWithResult :=
  [{ id := "q1", title := "T", sql := "SELECT 1", rationale := .str "",
     result := some ⟨["c"], List.replicate 25 (.num 1)⟩, error := none },
   { id := "q2", title := "U", sql := "SELECT 2", rationale := .str "",
     result := none, error := some "syntax error" }]

theorem capPlanForSynthesis_spec_witness :
    (capPlanForSynthesis capDemoPlan).length = capDemoPlan.length ∧
    List.Forall₂ (fun c orig =>
        c.id = orig.id ∧ c.title = orig.title ∧ c.sql = orig.sql ∧
        c.rationale = orig.rationale ∧ c.error = orig.error ∧
        c.result = orig.result.map capResult ∧
        ∀ r', c.result = some r' → ∃ r, orig.result = some r ∧
          r'.columns = r.columns ∧ r'.rows = r.rows.take 20 ∧
          r'.rows.length ≤ 20)
      (capPlanForSynthesis capDemoPlan) capDemoPlan :=
  capPlanForSynthesis_spec capDemoPlan

/-! ## Orchestrator claims -/

lemma mem_execTrace {n : Nat} {qs : List AnalysisPlanItem} {i : Nat}
    {p : InsightsProgress} (h : p ∈ execTrace n qs i) :
    p.phase = .executing ∧ p.totalQueries = n ∧ i ≤ p.completedQueries ∧
      p.completedQueries < i + qs.length := by
  induction qs generalizing i with
  | nil => simp [execTrace] at h
  | cons q rest ih =>
    rw [execTrace, List.mem_cons] at h
    rcases h with rfl | h
    · exact ⟨rfl, rfl, le_refl _, by simp⟩
    · obtain ⟨h1, h2, h3, h4⟩ := ih h
      exact ⟨h1, h2, by omega, by simp only [List.length_cons]; omega⟩

lemma execTrace_map_completed (n : Nat) (qs : List AnalysisPlanItem) (i : Nat) :
    (execTrace n qs i).map (fun p => p.completedQueries) =
      List.range' i qs.length := by
  induction qs generalizing i with
  | nil => rfl
  | cons q rest ih =>
    rw [execTrace, List.map_cons, List.length_cons, List.range'_succ, ih]

lemma pairwise_le_run_trace (n : Nat) (t : List Nat) (ht : ∀ b ∈ t, b = n)
    (hpt : t.Pairwise (· ≤ ·)) :
    ((0 : Nat) :: 0 :: (List.range' 0 n ++ t)).Pairwise (· ≤ ·) := by
  refine List.Pairwise.cons (fun a _ => Nat.zero_le a)
    (List.Pairwise.cons (fun a _ => Nat.zero_le a) ?_)
  rw [List.pairwise_append]
  refine ⟨(List.pairwise_lt_range' 0 n).imp le_of_lt, hpt, ?_⟩
  intro a ha b hb
  have h1 : a < 0 + n := (List.mem_range'_1.mp ha).2
  rw [ht b hb]
  omega

/-- C1: on a run with a non-empty validated plan whose synthesis call
succeeds, every executed item carries exactly one of `result` / `error`
(`result` holding the engine's rows on success, `error` the failure message
on failure), the batch is never aborted by an item failure (one output item
per plan item, regardless of the engine's outcomes), and the run emits
`synthesizing` and `done` snapshots and settles successfully. -/
theorem runInsights_tolerates_item_failures
    (planResp : AnalysisPlanResponse)
    (engine : String → Except String QueryResult)
    (synth : List PlanItemWithResult → Except String InsightsResponse)
    (resp : InsightsResponse)
    (hne : planResp.queries ≠ [])
    (hs : synth (execItems engine planResp.queries) = .ok resp) :
    (∀ item ∈ execItems engine planResp.queries,
       (∃ r, item.result = some r ∧ item.error = none) ∨
       (item.result = none ∧ ∃ e, item.error = some e)) ∧
    (∀ q ∈ planResp.queries, ∀ r, engine q.sql = .ok r →
       (execItem engine q).result = some r ∧ (execItem engine q).error = none) ∧
    (∀ q ∈ planResp.queries, ∀ e, engine q.sql = .error e →
       (execItem engine q).result = none ∧ (execItem engine q).error = some e) ∧
    (execItems engine planResp.queries).length = planResp.queries.length ∧
    (∃ p ∈ (runInsights (.ok planResp) engine synth).1, p.phase = .synthesizing) ∧
    (∃ p ∈ (runInsights (.ok planResp) engine synth).1, p.phase = .done) ∧
    (∃ out, (runInsights (.ok planResp) engine synth).2 = .ok out) := by
  have hlen : ¬planResp.queries.length = 0 := by
    simpa [List.length_eq_zero] using hne
  refine ⟨?_, ?_, ?_, List.length_map _ _, ?_, ?_, ?_⟩
  · intro item hitem
    obtain ⟨q, _, rfl⟩ := List.mem_map.mp hitem
    cases he : engine q.sql with
    | error e => exact Or.inr ⟨by simp [execItem, he], e, by simp [execItem, he]⟩
    | ok r => exact Or.inl ⟨r, by simp [execItem, he], by simp [execItem, he]⟩
  · intro q _ r hr
    simp [execItem, hr]
  · intro q _ e he
    simp [execItem, he]
  · refine ⟨{ phase := .synthesizing, totalQueries := planResp.queries.length,
              completedQueries := planResp.queries.length }, ?_, rfl⟩
    simp [runInsights, hlen, hs]
  · refine ⟨{ phase := .done, totalQueries := planResp.queries.length,
              completedQueries := planResp.queries.length }, ?_, rfl⟩
    simp [runInsights, hlen, hs]
  · refine ⟨{ summary := resp.summary,
              insights := attachResults (execItems engine planResp.queries)
                resp.insights }, ?_⟩
    simp [runInsights, hlen, hs]

/-- Scenario C: two plan queries, the second failing in the engine. -/
def scenarioCPlan : AnalysisPlanResponse :=
  ⟨[{ id := "q1", title := "Ok", sql := "SELECT 1", rationale := .str "" },
    { id := "q2", title := "Bad", sql := "BROKEN SQL", rationale := .str "" }]⟩

def scenarioCEngine : String → Except String QueryResult :=
  fun sql => if sql = "SELECT 1" then .ok ⟨["x"], [.num 1]⟩ else .error "syntax error"

def scenarioCSynth : List PlanItemWithResult → Except String InsightsResponse :=
  fun _ => .ok ⟨"summary", []⟩

theorem runInsights_tolerates_item_failures_witness :
    scenarioCPlan.queries ≠ [] ∧
    scenarioCSynth (execItems scenarioCEngine scenarioCPlan.queries) =
      .ok ⟨"summary", []⟩ ∧
    ((∀ item ∈ execItems scenarioCEngine scenarioCPlan.queries,
        (∃ r, item.result = some r ∧ item.error = none) ∨
        (item.result = none ∧ ∃ e, item.error = some e)) ∧
     (∀ q ∈ scenarioCPlan.queries, ∀ r, scenarioCEngine q.sql = .ok r →
        (execItem scenarioCEngine q).result = some r ∧
        (execItem scenarioCEngine q).error = none) ∧
     (∀ q ∈ scenarioCPlan.queries, ∀ e, scenarioCEngine q.sql = .error e →
        (execItem scenarioCEngine q).result = none ∧
        (execItem scenarioCEngine q).error = some e) ∧
     (execItems scenarioCEngine scenarioCPlan.queries).length =
       scenarioCPlan.queries.length ∧
     (∃ p ∈ (runInsights (.ok scenarioCPlan) scenarioCEngine scenarioCSynth).1,
        p.phase = .synthesizing) ∧
     (∃ p ∈ (runInsights (.ok scenarioCPlan) scenarioCEngine scenarioCSynth).1,
        p.phase = .done) ∧
     (∃ out, (runInsights (.ok scenarioCPlan) scenarioCEngine scenarioCSynth).2 =
        .ok out)) :=
  ⟨by simp [scenarioCPlan], rfl,
   runInsights_tolerates_item_failures scenarioCPlan scenarioCEngine scenarioCSynth
     ⟨"summary", []⟩ (by simp [scenarioCPlan]) rfl⟩

/-- C2 counterexample: on an empty validated plan the run's failure message
is not the spec's exact string "No analysis queries were generated." (the
source appends " Please try again."), and no emitted progress snapshot ever
has the `error` phase. -/
theorem runInsights_emptyPlan_counterexample :
    (runInsights (.ok ⟨[]⟩) (fun _ => .error "boom") (fun _ => .error "boom")).2 ≠
      .error "No analysis queries were generated." ∧
    ∀ p ∈ (runInsights (.ok ⟨[]⟩) (fun _ => .error "boom")
        (fun _ => .error "boom")).1, p.phase ≠ .error := by
  constructor
  · intro h
    exact absurd (Except.error.inj h) (by decide)
  · intro p hp
    have hp' : p ∈
        [({ phase := .planning, totalQueries := 0,
            completedQueries := 0 } : InsightsProgress)] := hp
    rw [List.mem_singleton] at hp'
    subst hp'
    decide

/-- C2 (amended): for every run in which the validated plan's query list is
empty, the run fails with the fatal message "No analysis queries were
generated. Please try again." (never an empty success); the observable
progress consists of the single `planning` snapshot — it ends in the
`planning` phase and no `error`-phase snapshot is ever emitted. -/
theorem runInsights_emptyPlan (planResp : AnalysisPlanResponse)
    (engine : String → Except String QueryResult)
    (synth : List PlanItemWithResult → Except String InsightsResponse)
    (h : planResp.queries = []) :
    runInsights (.ok planResp) engine synth =
      ([{ phase := .planning, totalQueries := 0, completedQueries := 0 }],
       .error "No analysis queries were generated. Please try again.") ∧
    (∀ p ∈ (runInsights (.ok planResp) engine synth).1, p.phase ≠ .error) ∧
    ((runInsights (.ok planResp) engine synth).1.map (fun p => p.phase)).getLast? =
      some .planning := by
  have hlen : planResp.queries.length = 0 := by simp [h]
  refine ⟨by simp [runInsights, hlen], ?_, by simp [runInsights, hlen]⟩
  intro p hp
  simp only [runInsights, hlen, if_pos, List.mem_singleton] at hp
  subst hp
  decide

theorem runInsights_emptyPlan_witness :
    (⟨[]⟩ : AnalysisPlanResponse).queries = [] ∧
    (runInsights (.ok ⟨[]⟩) (fun _ => .error "boom") (fun _ => .error "boom") =
       ([{ phase := .planning, totalQueries := 0, completedQueries := 0 }],
        .error "No analysis queries were generated. Please try again.") ∧
     (∀ p ∈ (runInsights (.ok ⟨[]⟩) (fun _ => .error "boom")
         (fun _ => .error "boom")).1, p.phase ≠ .error) ∧
     ((runInsights (.ok ⟨[]⟩) (fun _ => .error "boom")
         (fun _ => .error "boom")).1.map (fun p => p.phase)).getLast? =
       some .planning) :=
  ⟨rfl, runInsights_emptyPlan ⟨[]⟩ (fun _ => .error "boom")
    (fun _ => .error "boom") rfl⟩

/-- A 3-item plan with trivially succeeding engine and synthesis oracles,
used to observe the progress counter. -/
def plan3 : AnalysisPlanResponse :=
  ⟨[{ id := "q1", title := "A", sql := "SELECT 1", rationale := .str "" },
    { id := "q2", title := "B", sql := "SELECT 2", rationale := .str "" },
    { id := "q3", title := "C", sql := "SELECT 3", rationale := .str "" }]⟩

def engine3 : String → Except String QueryResult := fun _ => .ok ⟨[], []⟩

def synth3 : List PlanItemWithResult → Except String InsightsResponse :=
  fun _ => .ok ⟨"s", []⟩

/-- C5 counterexample: on a 3-item run, the `completedQueries` values of the
`executing`-phase snapshots end at 2, not 3 — the counter is advanced with
the current item's index before that item executes, and the value 3 first
appears on the `synthesizing` snapshot. -/
theorem runInsights_progress_counterexample :
    ((((runInsights (.ok plan3) engine3 synth3).1.filter
        (fun p => decide (p.phase = InsightsPhase.executing))).map
      (fun p => p.completedQueries)).getLast? = some 2) ∧
    ¬((((runInsights (.ok plan3) engine3 synth3).1.filter
        (fun p => decide (p.phase = InsightsPhase.executing))).map
      (fun p => p.completedQueries)).getLast? = some 3) := by
  decide

/-- C5 (amended): in every run, `completedQueries` never exceeds
`totalQueries` in any snapshot and is non-decreasing across the run; in a
run with 3 plan items the `completedQueries` values observed while the
phase is `executing` are the non-decreasing sequence [0, 0, 1, 2] — ending
at 2 — and the value 3 is first observed on the `synthesizing` snapshot
emitted at the transition out of `executing`. -/
theorem runInsights_progress_monotone
    (plan : Except String AnalysisPlanResponse)
    (engine : String → Except String QueryResult)
    (synth : List PlanItemWithResult → Except String InsightsResponse) :
    ((runInsights plan engine synth).1.map
      (fun p => p.completedQueries)).Pairwise (· ≤ ·) ∧
    (∀ p ∈ (runInsights plan engine synth).1,
       p.completedQueries ≤ p.totalQueries) ∧
    (∀ planResp, plan = .ok planResp → planResp.queries.length = 3 →
       (((runInsights plan engine synth).1.filter
           (fun p => decide (p.phase = InsightsPhase.executing))).map
         (fun p => p.completedQueries)) = [0, 0, 1, 2] ∧
       ∃ p ∈ (runInsights plan engine synth).1,
         p.phase = .synthesizing ∧ p.completedQueries = 3) := by
  rcases plan with msg | planResp
  · refine ⟨by simp [runInsights], ?_, ?_⟩
    · intro p hp
      have hp' : p ∈
          [({ phase := .planning, totalQueries := 0,
              completedQueries := 0 } : InsightsProgress)] := hp
      rw [List.mem_singleton] at hp'
      subst hp'
      exact le_refl 0
    · intro pr hpr
      exact absurd hpr (by simp)
  · by_cases hlen : planResp.queries.length = 0
    · refine ⟨by simp [runInsights, hlen], ?_, ?_⟩
      · intro p hp
        simp only [runInsights, hlen, if_pos, List.mem_singleton] at hp
        subst hp
        exact le_refl 0
      · intro pr hpr h3
        rw [Except.ok.injEq] at hpr
        subst hpr
        omega
    · cases hsy : synth (execItems engine planResp.queries) with
      | error msg =>
        have htr : (runInsights (.ok planResp) engine synth).1 =
            { phase := .planning, totalQueries := 0, completedQueries := 0 } ::
            { phase := .executing, totalQueries := planResp.queries.length,
              completedQueries := 0 } ::
            (execTrace planResp.queries.length planResp.queries 0 ++
              [{ phase := .synthesizing, totalQueries := planResp.queries.length,
                 completedQueries := planResp.queries.length }]) := by
          simp [runInsights, hlen, hsy]
        refine ⟨?_, ?_, ?_⟩
        · rw [htr]
          simp only [List.map_cons, List.map_append, execTrace_map_completed,
            List.map_cons, List.map_nil]
          exact pairwise_le_run_trace planResp.queries.length _
            (by simp) (by simp)
        · intro p hp
          rw [htr] at hp
          simp only [List.mem_cons, List.mem_append, List.mem_singleton,
            List.not_mem_nil, or_false] at hp
          rcases hp with rfl | rfl | hp | rfl
          · exact le_refl 0
          · exact Nat.zero_le _
          · obtain ⟨_, h2, _, h4⟩ := mem_execTrace hp
            omega
          · exact le_refl _
        · intro pr hpr h3
          rw [Except.ok.injEq] at hpr
          subst hpr
          obtain ⟨a, b, c, hqs⟩ := List.length_eq_three.mp h3
          constructor
          · rw [htr, hqs]
            simp [execTrace]
          · refine ⟨{ phase := .synthesizing,
                      totalQueries := planResp.queries.length,
                      completedQueries := planResp.queries.length },
                    ?_, rfl, h3⟩
            rw [htr]
            simp
      | ok resp =>
        have htr : (runInsights (.ok planResp) engine synth).1 =
            { phase := .planning, totalQueries := 0, completedQueries := 0 } ::
            { phase := .executing, totalQueries := planResp.queries.length,
              completedQueries := 0 } ::
            (execTrace planResp.queries.length planResp.queries 0 ++
              [{ phase := .synthesizing, totalQueries := planResp.queries.length,
                 completedQueries := planResp.queries.length },
               { phase := .done, totalQueries := planResp.queries.length,
                 completedQueries := planResp.queries.length }]) := by
          simp [runInsights, hlen, hsy]
        refine ⟨?_, ?_, ?_⟩
        · rw [htr]
          simp only [List.map_cons, List.map_append, execTrace_map_completed,
            List.map_cons, List.map_nil]
          exact pairwise_le_run_trace planResp.queries.length _
            (by simp) (by simp)
        · intro p hp
          rw [htr] at hp
          simp only [List.mem_cons, List.mem_append, List.mem_singleton,
            List.not_mem_nil, or_false] at hp
          rcases hp with rfl | rfl | hp | rfl | rfl
          · exact le_refl 0
          · exact Nat.zero_le _
          · obtain ⟨_, h2, _, h4⟩ := mem_execTrace hp
            omega
          · exact le_refl _
          · exact le_refl _
        · intro pr hpr h3
          rw [Except.ok.injEq] at hpr
          subst hpr
          obtain ⟨a, b, c, hqs⟩ := List.length_eq_three.mp h3
          constructor
          · rw [htr, hqs]
            simp [execTrace]
          · refine ⟨{ phase := .synthesizing,
                      totalQueries := planResp.queries.length,
                      completedQueries := planResp.queries.length },
                    ?_, rfl, h3⟩
            rw [htr]
            simp

theorem runInsights_progress_monotone_witness :
    (Except.ok plan3 : Except String AnalysisPlanResponse) = .ok plan3 ∧
    plan3.queries.length = 3 ∧
    ((((runInsights (.ok plan3) engine3 synth3).1.filter
        (fun p => decide (p.phase = InsightsPhase.executing))).map
      (fun p => p.completedQueries)) = [0, 0, 1, 2] ∧
     ∃ p ∈ (runInsights (.ok plan3) engine3 synth3).1,
       p.phase = .synthesizing ∧ p.completedQueries = 3) :=
  ⟨rfl, rfl,
   (runInsights_progress_monotone (.ok plan3) engine3 synth3).2.2 plan3 rfl rfl⟩

end ChatWithData
